import Mathlib

/-!
Verification of the Roll-Inventory core (src/app.py) against its specification.

The embedding targets the canonical schema that `init_db` produces on a fresh
database: `rolls(roll_id, paper_type, weight_lbs, warehouse, location, created_at)`
and `movements(id, roll_id, action, from_wh, to_wh, from_loc, to_loc, ts)`.
Under this schema `rolls_columns` selects exactly these columns, so
`safe_select_roll`, `safe_insert_roll`, `safe_update_roll_location`,
`safe_update_roll_full` and `log_movement` act on every column below, and the
schema-compatibility branches of the source are inert (the spec excludes them
from the core).  Timestamps and the serial movement id are represented by list
order; a transaction is one pure function from the pre-state to the post-state,
so "committed in the same transaction" is the function returning both effects
at once, and an error return carries the store state at the moment of failure.
-/

namespace RollInventory

/-- A row of the `rolls` table (canonical schema). -/
structure Roll where
  roll_id : String
  paper_type : String
  weight : Int
  warehouse : String
  location : String
  deriving DecidableEq

/-- A row of the `movements` table (canonical schema); insertion order models
the serial id / timestamp. -/
structure Movement where
  roll_id : String
  action : String
  from_wh : String
  to_wh : String
  from_loc : String
  to_loc : String
  deriving DecidableEq

/-- The persistent store: the two relations of §6 of the spec. -/
structure DB where
  rolls : List Roll
  movements : List Movement
  deriving DecidableEq

/-! ### String helpers: Python `str.strip` / `str.upper` (ASCII fragment) -/

/-- The whitespace characters `str.strip()` removes (ASCII fragment of Python's
definition; the claims only exercise ASCII input). -/
def isSpace (c : Char) : Bool :=
  c == ' ' || c == '\t' || c == '\n' || c == '\r' || c == '\x0b' || c == '\x0c'

/-- Python `s.strip()`. -/
def pyStrip (s : String) : String :=
  String.mk (((s.toList.dropWhile isSpace).reverse.dropWhile isSpace).reverse)

/-- ASCII uppercase of one character, as Python `str.upper` does on ASCII. -/
def upChar (c : Char) : Char :=
  if 'a' ≤ c ∧ c ≤ 'z' then Char.ofNat (c.toNat - 32) else c

/-- Python `s.upper()` (ASCII fragment). -/
def pyUpper (s : String) : String :=
  String.mk (s.toList.map upChar)

/-- `clean` from app.py: `(s or "").strip()`. -/
def clean (s : String) : String := pyStrip s

/-! ### WH_LOCATIONS (app.py lines 16-21) -/

/-- Sub-locations of WH1 (14 codes). -/
def WH1_LOCS : List String :=
  ["02", "03", "04", "05", "06", "07", "08", "09", "10", "12", "16", "17", "18", "19"]

/-- Sub-locations of WH2: `str(n) for n in range(20, 31)`, i.e. 20..30. -/
def WH2_LOCS : List String :=
  ["20", "21", "22", "23", "24", "25", "26", "27", "28", "29", "30"]

/-- Sub-locations of the terminal USED bucket. -/
def USED_LOCS : List String := ["USED"]

/-- The `WH_LOCATIONS` dict: key lookup. -/
def whLocations (w : String) : Option (List String) :=
  if w == "WH1" then some WH1_LOCS
  else if w == "WH2" then some WH2_LOCS
  else if w == "USED" then some USED_LOCS
  else none

/-- `locations_for` from app.py: `WH_LOCATIONS.get((warehouse or "").upper().strip(), [])`. -/
def locations_for (warehouse : String) : List String :=
  (whLocations (pyStrip (pyUpper warehouse))).getD []

/-! ### parse_weight (app.py lines 35-43)

`parse_weight` runs `int(float(s))` and keeps the result when positive.
`float` is modelled on the plain decimal-literal fragment it accepts
(optional sign, integer digits, optionally a dot and fractional digits, at
least one digit in total); exponents, underscores, `inf`/`nan` and binary
floating-point rounding are outside what any claim exercises.  `int` truncates
toward zero, which on such a literal is the signed integer part. -/

/-- Numeric value of a digit string. -/
def digitsVal (ds : List Char) : Nat :=
  ds.foldl (fun a c => 10 * a + (c.toNat - 48)) 0

/-- Take a maximal run of decimal digits. -/
def takeDigits : List Char → List Char × List Char
  | [] => ([], [])
  | c :: cs =>
    if c.isDigit then
      let (ds, rest) := takeDigits cs
      (c :: ds, rest)
    else ([], c :: cs)

/-- Parse a Python decimal literal: `(negative?, integer digits, fraction digits)`. -/
def parseDecLit : List Char → Option (Bool × List Char × List Char)
  | cs =>
    let (neg, cs1) :=
      match cs with
      | '-' :: rest => (true, rest)
      | '+' :: rest => (false, rest)
      | _ => (false, cs)
    let (ip, cs2) := takeDigits cs1
    match cs2 with
    | [] => if ip.isEmpty then none else some (neg, ip, [])
    | '.' :: cs3 =>
      let (fp, cs4) := takeDigits cs3
      if cs4.isEmpty && !(ip.isEmpty && fp.isEmpty) then some (neg, ip, fp) else none
    | _ => none

/-- `parse_weight` from app.py: strip, `int(float(s))`, keep only positive results. -/
def parse_weight (s : String) : Option Int :=
  let t := clean s
  if t == "" then none
  else
    match parseDecLit t.toList with
    | none => none
    | some (neg, ip, _fp) =>
      let w : Int := if neg then -(digitsVal ip : Int) else (digitsVal ip : Int)
      if w > 0 then some w else none

/-! ### Store primitives (the safe_* helpers of app.py on the canonical schema) -/

/-- `safe_select_roll`: `SELECT ... FROM rolls WHERE roll_id=%s` (exact match). -/
def findRoll (db : DB) (rid : String) : Option Roll :=
  db.rolls.find? (fun r => r.roll_id == rid)

/-- `safe_insert_roll`: append a new row. -/
def insertRoll (db : DB) (r : Roll) : DB :=
  { db with rolls := db.rolls ++ [r] }

/-- Row transformer of `safe_update_roll_location`'s UPDATE. -/
def updateLocFn (rid wh loc : String) (r : Roll) : Roll :=
  if r.roll_id == rid then { r with warehouse := wh, location := loc } else r

/-- `safe_update_roll_location`: `UPDATE rolls SET warehouse=%s, location=%s WHERE roll_id=%s`. -/
def updateRollLocation (db : DB) (rid wh loc : String) : DB :=
  { db with rolls := db.rolls.map (updateLocFn rid wh loc) }

/-- Row transformer of `safe_update_roll_full`'s UPDATE. -/
def updateFullFn (rid pt : String) (w : Int) (wh loc : String) (r : Roll) : Roll :=
  if r.roll_id == rid then
    { r with paper_type := pt, weight := w, warehouse := wh, location := loc }
  else r

/-- `safe_update_roll_full`: update paper type, weight, warehouse and location. -/
def updateRollFull (db : DB) (rid pt : String) (w : Int) (wh loc : String) : DB :=
  { db with rolls := db.rolls.map (updateFullFn rid pt w wh loc) }

/-- `DELETE FROM rolls WHERE roll_id=%s`. -/
def deleteRollRow (db : DB) (rid : String) : DB :=
  { db with rolls := db.rolls.filter (fun r => !(r.roll_id == rid)) }

/-- `log_movement`: on the canonical schema every column exists and every call
site supplies all six fields non-empty, so exactly one row is inserted. -/
def logMovement (db : DB) (m : Movement) : DB :=
  { db with movements := db.movements ++ [m] }

/-! ### Errors: one tag per distinct flash-message failure of the handlers -/

/-- The failure outcomes of the route handlers (each a distinct error flash). -/
inductive AppError where
  | invalidWarehouse
  | missingFields
  | invalidSubLocation
  | duplicateID
  | notFound
  | invalidTransfer
  | locationMismatch
  | missingRollId
  deriving DecidableEq

/-! ### Route handlers (POST bodies), app.py

Each handler maps the pre-state and its textual inputs to the post-state and
an optional error.  Form plumbing (`request.form.get` with the
`weight`/`weight_lbs` and `location`/`sublocation` fallback chains) is folded
into a single string argument per field.  An error result carries the store as
it stood when the handler bailed out (the source closes the connection without
committing there, so any uncommitted work is discarded). -/

/-- `add_form` (app.py lines 413-458), POST path. -/
def add_form (db : DB) (warehouse paper_type roll_id weightS locationS : String) :
    DB × Option AppError :=
  let wh := pyUpper (clean warehouse)
  if wh == "WH1" || wh == "WH2" then
    let pt := clean paper_type
    let rid := clean roll_id
    let loc := clean locationS
    match parse_weight weightS with
    | none => (db, some AppError.missingFields)
    | some w =>
      if pt == "" || rid == "" || loc == "" then (db, some AppError.missingFields)
      else if (locations_for wh).contains loc then
        match findRoll db rid with
        | some _ => (db, some AppError.duplicateID)
        | none =>
          (logMovement
            (insertRoll db
              { roll_id := rid, paper_type := pt, weight := w, warehouse := wh, location := loc })
            { roll_id := rid, action := "ADD", from_wh := wh, to_wh := wh,
              from_loc := loc, to_loc := loc }, none)
      else (db, some AppError.invalidSubLocation)
  else (db, some AppError.invalidWarehouse)

/-- `edit_roll_form` (app.py lines 511-581), POST path. -/
def edit_roll_form (db : DB) (roll_id warehouseS locationS paper_typeS weightS : String) :
    DB × Option AppError :=
  let rid := clean roll_id
  match findRoll db rid with
  | none => (db, some AppError.notFound)
  | some r =>
    let new_wh := pyUpper (clean warehouseS)
    let new_loc := clean locationS
    let new_paper := clean paper_typeS
    let raw_weight := clean weightS
    let new_weight? := if raw_weight == "" then some r.weight else parse_weight raw_weight
    -- `if new_wh not in ALLOWED_WAREHOUSES`
    if new_wh == "WH1" || new_wh == "WH2" || new_wh == "USED" then
      match new_weight? with
      | none => (db, some AppError.missingFields)
      | some new_weight =>
        if new_paper == "" then (db, some AppError.missingFields)
        else if new_wh == "USED" then
          (logMovement (updateRollFull db rid new_paper new_weight "USED" "USED")
            { roll_id := rid, action := "EDIT_MOVE", from_wh := r.warehouse, to_wh := "USED",
              from_loc := r.location, to_loc := "USED" }, none)
        else if (locations_for new_wh).contains new_loc then
          (logMovement (updateRollFull db rid new_paper new_weight new_wh new_loc)
            { roll_id := rid, action := "EDIT_MOVE", from_wh := r.warehouse, to_wh := new_wh,
              from_loc := r.location, to_loc := new_loc }, none)
        else (db, some AppError.invalidSubLocation)
    else (db, some AppError.invalidWarehouse)

/-- `to_used_pc` (app.py lines 585-611). -/
def to_used_pc (db : DB) (roll_id : String) : DB × Option AppError :=
  let rid := clean roll_id
  match findRoll db rid with
  | none => (db, some AppError.notFound)
  | some r =>
    (logMovement (updateRollLocation db rid "USED" "USED")
      { roll_id := rid, action := "TO_USED_PC", from_wh := r.warehouse, to_wh := "USED",
        from_loc := r.location, to_loc := "USED" }, none)

/-- `delete_roll_pc` (app.py lines 615-640): log first, then delete the row. -/
def delete_roll_pc (db : DB) (roll_id : String) : DB × Option AppError :=
  let rid := clean roll_id
  match findRoll db rid with
  | none => (db, some AppError.notFound)
  | some r =>
    (deleteRollRow
      (logMovement db
        { roll_id := rid, action := "DELETE", from_wh := r.warehouse, to_wh := r.warehouse,
          from_loc := r.location, to_loc := r.location }) rid, none)

/-- `transfer_form` (app.py lines 644-693), POST path. -/
def transfer_form (db : DB) (from_whS to_whS roll_idS to_locS : String) :
    DB × Option AppError :=
  let from_wh := pyUpper (clean from_whS)
  let to_wh := pyUpper (clean to_whS)
  if (from_wh == "WH1" || from_wh == "WH2") && (to_wh == "WH1" || to_wh == "WH2")
      && !(from_wh == to_wh) then
    let rid := clean roll_idS
    let to_loc := clean to_locS
    if rid == "" || to_loc == "" then (db, some AppError.missingFields)
    else if (locations_for to_wh).contains to_loc then
      match findRoll db rid with
      | none => (db, some AppError.notFound)
      | some r =>
        if r.warehouse == from_wh then
          (logMovement (updateRollLocation db rid to_wh to_loc)
            { roll_id := rid, action := "TRANSFER", from_wh := from_wh, to_wh := to_wh,
              from_loc := r.location, to_loc := to_loc }, none)
        else (db, some AppError.locationMismatch)
    else (db, some AppError.invalidSubLocation)
  else (db, some AppError.invalidTransfer)

/-- `remove_form` (app.py lines 697-727), POST path. -/
def remove_form (db : DB) (roll_id : String) : DB × Option AppError :=
  let rid := clean roll_id
  if rid == "" then (db, some AppError.missingRollId)
  else
    match findRoll db rid with
    | none => (db, some AppError.notFound)
    | some r =>
      (logMovement (updateRollLocation db rid "USED" "USED")
        { roll_id := rid, action := "REMOVE_TO_USED", from_wh := r.warehouse, to_wh := "USED",
          from_loc := r.location, to_loc := "USED" }, none)

/-! ### Batch remove (app.py lines 731-770) -/

/-- Separator class of `re.split(r"[\s,;]+", raw)` (ASCII `\s` plus `,` `;`). -/
def isSep (c : Char) : Bool := isSpace c || c == ',' || c == ';'

/-- Splitting helper: accumulate the current token (reversed). -/
def splitSepsAux : List Char → List Char → List String
  | [], [] => []
  | [], acc => [String.mk acc.reverse]
  | c :: cs, acc =>
    if isSep c then
      match acc with
      | [] => splitSepsAux cs []
      | _ => String.mk acc.reverse :: splitSepsAux cs []
    else splitSepsAux cs (c :: acc)

/-- `[x for x in re.split(r"[\s,;]+", raw) if x.strip()]`: split on separator
runs and drop empty pieces (a token contains no whitespace, so the
`x.strip()` filter keeps exactly the non-empty tokens). -/
def splitSeps (s : String) : List String :=
  splitSepsAux s.toList []

/-- Helper for `dict.fromkeys`: drop ids already seen. -/
def dedupFirstAux : List String → List String → List String
  | [], _ => []
  | x :: xs, seen =>
    if x ∈ seen then dedupFirstAux xs seen else x :: dedupFirstAux xs (x :: seen)

/-- `list(dict.fromkeys(ids))`: deduplicate keeping first occurrences. -/
def dedupFirst (l : List String) : List String :=
  dedupFirstAux l []

/-- Accumulator of the batch loop: store, moved counter, missing ids. -/
structure BatchResult where
  db : DB
  moved : Nat
  missing : List String
  deriving DecidableEq

/-- One iteration of the `for rid in ids` loop of `remove_batch_form`. -/
def batchStep (acc : BatchResult) (rid : String) : BatchResult :=
  match findRoll acc.db rid with
  | none => { acc with missing := acc.missing ++ [rid] }
  | some r =>
    { db :=
        logMovement (updateRollLocation acc.db rid "USED" "USED")
          { roll_id := rid, action := "BATCH_REMOVE_TO_USED", from_wh := r.warehouse,
            to_wh := "USED", from_loc := r.location, to_loc := "USED" },
      moved := acc.moved + 1,
      missing := acc.missing }

/-- `remove_batch_form` (app.py lines 731-770), POST path. -/
def remove_batch_form (db : DB) (rawS : String) : BatchResult × Option AppError :=
  let raw := clean rawS
  if raw == "" then ({ db := db, moved := 0, missing := [] }, some AppError.missingRollId)
  else
    let ids := dedupFirst (splitSeps raw)
    (ids.foldl batchStep { db := db, moved := 0, missing := [] }, none)

/-! ### Location validity and reachable states -/

/-- A `(warehouse, sub-location)` pair of the code's enumeration `WH_LOCATIONS`. -/
def validPair (wh loc : String) : Bool :=
  match whLocations wh with
  | some ls => ls.contains loc
  | none => false

/-- The pair enumeration as the spec words it: WH1 with one of its 14 codes,
WH2 with one of 20..30, or a terminal location with EMPTY sub-location.
Stated from the spec's sentences, for comparison with `validPair`. -/
def validPairSpec (wh loc : String) : Bool :=
  (wh == "WH1" && WH1_LOCS.contains loc)
    || (wh == "WH2" && WH2_LOCS.contains loc)
    || (wh == "USED" && loc == "")

/-- Every roll at rest sits at a valid enumerated pair. -/
def LocationsClosed (db : DB) : Prop :=
  ∀ r ∈ db.rolls, validPair r.warehouse r.location = true

instance (db : DB) : Decidable (LocationsClosed db) := by
  unfold LocationsClosed; infer_instance

/-- States reachable from an empty store by successful handler runs. -/
inductive Reachable : DB → Prop where
  | init : Reachable { rolls := [], movements := [] }
  | add {db db' : DB} {a b c d e : String} :
      Reachable db → add_form db a b c d e = (db', none) → Reachable db'
  | edit {db db' : DB} {a b c d e : String} :
      Reachable db → edit_roll_form db a b c d e = (db', none) → Reachable db'
  | toUsed {db db' : DB} {a : String} :
      Reachable db → to_used_pc db a = (db', none) → Reachable db'
  | del {db db' : DB} {a : String} :
      Reachable db → delete_roll_pc db a = (db', none) → Reachable db'
  | transfer {db db' : DB} {a b c d : String} :
      Reachable db → transfer_form db a b c d = (db', none) → Reachable db'
  | remove {db db' : DB} {a : String} :
      Reachable db → remove_form db a = (db', none) → Reachable db'
  | batch {db : DB} {raw : String} {res : BatchResult} :
      Reachable db → remove_batch_form db raw = (res, none) → Reachable res.db

/-! ### Concrete states used to run the handlers -/

/-- The empty store. -/
def dbEmpty : DB := { rolls := [], movements := [] }

/-- The roll created by `add_form dbEmpty "WH1" "KRAFT" "R1" "100" "02"`. -/
def rollR1 : Roll :=
  { roll_id := "R1", paper_type := "KRAFT", weight := 100, warehouse := "WH1", location := "02" }

/-- Store after adding `rollR1`. -/
def exDb1 : DB :=
  { rolls := [rollR1],
    movements :=
      [{ roll_id := "R1", action := "ADD", from_wh := "WH1", to_wh := "WH1",
         from_loc := "02", to_loc := "02" }] }

/-- Store after then removing `R1` to USED. -/
def exDb2 : DB :=
  { rolls :=
      [{ roll_id := "R1", paper_type := "KRAFT", weight := 100,
         warehouse := "USED", location := "USED" }],
    movements :=
      [{ roll_id := "R1", action := "ADD", from_wh := "WH1", to_wh := "WH1",
         from_loc := "02", to_loc := "02" },
       { roll_id := "R1", action := "REMOVE_TO_USED", from_wh := "WH1", to_wh := "USED",
         from_loc := "02", to_loc := "USED" }] }

/-! ### Basic facts about the store primitives -/

@[simp] theorem rolls_logMovement (db : DB) (m : Movement) :
    (logMovement db m).rolls = db.rolls := rfl

@[simp] theorem movements_logMovement (db : DB) (m : Movement) :
    (logMovement db m).movements = db.movements ++ [m] := rfl

@[simp] theorem movements_insertRoll (db : DB) (r : Roll) :
    (insertRoll db r).movements = db.movements := rfl

@[simp] theorem movements_updateRollLocation (db : DB) (rid wh lc : String) :
    (updateRollLocation db rid wh lc).movements = db.movements := rfl

@[simp] theorem movements_updateRollFull (db : DB) (rid pt : String) (w : Int) (wh lc : String) :
    (updateRollFull db rid pt w wh lc).movements = db.movements := rfl

@[simp] theorem movements_deleteRollRow (db : DB) (rid : String) :
    (deleteRollRow db rid).movements = db.movements := rfl

@[simp] theorem findRoll_logMovement (db : DB) (m : Movement) (rid : String) :
    findRoll (logMovement db m) rid = findRoll db rid := rfl

theorem find?_map_keyfix (f : Roll → Roll) (rid : String)
    (hk : ∀ r, (f r).roll_id = r.roll_id) :
    ∀ l : List Roll,
      (l.map f).find? (fun r => r.roll_id == rid)
        = (l.find? (fun r => r.roll_id == rid)).map f := by
  intro l
  induction l with
  | nil => rfl
  | cons r rs ih =>
    have hk' : ((f r).roll_id == rid) = (r.roll_id == rid) := by rw [hk]
    simp only [List.map_cons, List.find?_cons, hk']
    cases h : (r.roll_id == rid) <;> simp [h, ih]

theorem findRoll_updateRollLocation (db : DB) (x wh lc rid : String) :
    findRoll (updateRollLocation db x wh lc) rid
      = (findRoll db rid).map (updateLocFn x wh lc) :=
  find?_map_keyfix _ rid (fun r => by unfold updateLocFn; split <;> rfl) db.rolls

theorem findRoll_updateRollFull (db : DB) (x pt : String) (w : Int) (wh lc rid : String) :
    findRoll (updateRollFull db x pt w wh lc) rid
      = (findRoll db rid).map (updateFullFn x pt w wh lc) :=
  find?_map_keyfix _ rid (fun r => by unfold updateFullFn; split <;> rfl) db.rolls

theorem findRoll_some_roll_id {db : DB} {rid : String} {r : Roll}
    (h : findRoll db rid = some r) : r.roll_id = rid := by
  have := List.find?_some h
  exact beq_iff_eq.mp this

theorem findRoll_updateRollLocation_self {db : DB} {rid : String} {r : Roll}
    (h : findRoll db rid = some r) (wh lc : String) :
    findRoll (updateRollLocation db rid wh lc) rid
      = some { r with warehouse := wh, location := lc } := by
  rw [findRoll_updateRollLocation, h, Option.map_some']
  unfold updateLocFn
  rw [if_pos (beq_iff_eq.mpr (findRoll_some_roll_id h))]

theorem findRoll_updateRollFull_self {db : DB} {rid : String} {r : Roll}
    (h : findRoll db rid = some r) (pt : String) (w : Int) (wh lc : String) :
    findRoll (updateRollFull db rid pt w wh lc) rid
      = some { r with paper_type := pt, weight := w, warehouse := wh, location := lc } := by
  rw [findRoll_updateRollFull, h, Option.map_some']
  unfold updateFullFn
  rw [if_pos (beq_iff_eq.mpr (findRoll_some_roll_id h))]

theorem findRoll_updateRollLocation_ne {x rid : String} (db : DB) (wh lc : String)
    (h : rid ≠ x) :
    findRoll (updateRollLocation db x wh lc) rid = findRoll db rid := by
  rw [findRoll_updateRollLocation]
  cases hf : findRoll db rid with
  | none => rfl
  | some r =>
    rw [Option.map_some']
    unfold updateLocFn
    rw [if_neg]
    intro hx
    exact h ((findRoll_some_roll_id hf).symm.trans (beq_iff_eq.mp hx))

theorem findRoll_insert_of_none {db : DB} {rid : String} (r : Roll)
    (h : findRoll db rid = none) :
    findRoll (insertRoll db r) rid = if r.roll_id == rid then some r else none := by
  unfold findRoll insertRoll at *
  rw [List.find?_append, h, Option.none_or, List.find?_cons]
  cases hb : (r.roll_id == rid) <;> simp

/-! ### Success and failure characterizations of the handlers -/

theorem to_used_ok {db db' : DB} {ridS : String}
    (h : to_used_pc db ridS = (db', none)) :
    ∃ r, findRoll db (clean ridS) = some r ∧
      db' = logMovement (updateRollLocation db (clean ridS) "USED" "USED")
        { roll_id := clean ridS, action := "TO_USED_PC", from_wh := r.warehouse,
          to_wh := "USED", from_loc := r.location, to_loc := "USED" } := by
  simp only [to_used_pc] at h
  split at h
  · exact absurd h (by simp)
  · next r heq =>
    injection h with h1 h2
    exact ⟨r, heq, h1.symm⟩

theorem to_used_err {db db' : DB} {ridS : String} {e : AppError}
    (h : to_used_pc db ridS = (db', some e)) : db' = db := by
  simp only [to_used_pc] at h
  split at h
  · injection h with h1 h2; exact h1.symm
  · exact absurd h (by simp)

theorem delete_ok {db db' : DB} {ridS : String}
    (h : delete_roll_pc db ridS = (db', none)) :
    ∃ r, findRoll db (clean ridS) = some r ∧
      db' = deleteRollRow
        (logMovement db
          { roll_id := clean ridS, action := "DELETE", from_wh := r.warehouse,
            to_wh := r.warehouse, from_loc := r.location, to_loc := r.location })
        (clean ridS) := by
  simp only [delete_roll_pc] at h
  split at h
  · exact absurd h (by simp)
  · next r heq =>
    injection h with h1 h2
    exact ⟨r, heq, h1.symm⟩

theorem delete_err {db db' : DB} {ridS : String} {e : AppError}
    (h : delete_roll_pc db ridS = (db', some e)) : db' = db := by
  simp only [delete_roll_pc] at h
  split at h
  · injection h with h1 h2; exact h1.symm
  · exact absurd h (by simp)

theorem remove_ok {db db' : DB} {ridS : String}
    (h : remove_form db ridS = (db', none)) :
    ∃ r, (clean ridS == "") = false ∧ findRoll db (clean ridS) = some r ∧
      db' = logMovement (updateRollLocation db (clean ridS) "USED" "USED")
        { roll_id := clean ridS, action := "REMOVE_TO_USED", from_wh := r.warehouse,
          to_wh := "USED", from_loc := r.location, to_loc := "USED" } := by
  simp only [remove_form] at h
  split at h
  · exact absurd h (by simp)
  · next hne =>
    split at h
    · exact absurd h (by simp)
    · next r heq =>
      injection h with h1 h2
      exact ⟨r, Bool.not_eq_true _ ▸ hne, heq, h1.symm⟩

theorem remove_err {db db' : DB} {ridS : String} {e : AppError}
    (h : remove_form db ridS = (db', some e)) : db' = db := by
  simp only [remove_form] at h
  split at h
  · injection h with h1 h2; exact h1.symm
  · split at h
    · injection h with h1 h2; exact h1.symm
    · exact absurd h (by simp)

theorem batchStep_found {acc : BatchResult} {rid : String} {r : Roll}
    (h : findRoll acc.db rid = some r) :
    batchStep acc rid =
      { db := logMovement (updateRollLocation acc.db rid "USED" "USED")
          { roll_id := rid, action := "BATCH_REMOVE_TO_USED", from_wh := r.warehouse,
            to_wh := "USED", from_loc := r.location, to_loc := "USED" },
        moved := acc.moved + 1, missing := acc.missing } := by
  unfold batchStep
  rw [h]

theorem batchStep_missing {acc : BatchResult} {rid : String}
    (h : findRoll acc.db rid = none) :
    batchStep acc rid = { acc with missing := acc.missing ++ [rid] } := by
  unfold batchStep
  rw [h]

theorem transfer_ok {db db' : DB} {fS tS ridS lS : String}
    (h : transfer_form db fS tS ridS lS = (db', none)) :
    ∃ r, findRoll db (clean ridS) = some r ∧
      (pyUpper (clean fS) == "WH1" || pyUpper (clean fS) == "WH2") = true ∧
      (pyUpper (clean tS) == "WH1" || pyUpper (clean tS) == "WH2") = true ∧
      (locations_for (pyUpper (clean tS))).contains (clean lS) = true ∧
      (r.warehouse == pyUpper (clean fS)) = true ∧
      db' = logMovement
        (updateRollLocation db (clean ridS) (pyUpper (clean tS)) (clean lS))
        { roll_id := clean ridS, action := "TRANSFER", from_wh := pyUpper (clean fS),
          to_wh := pyUpper (clean tS), from_loc := r.location, to_loc := clean lS } := by
  simp only [transfer_form] at h
  split at h
  · rename_i hguard
    split at h
    · exact absurd (congrArg Prod.snd h) (by simp)
    · rename_i hne
      split at h
      · rename_i hcont
        split at h
        · exact absurd (congrArg Prod.snd h) (by simp)
        · rename_i r heq
          split at h
          · rename_i hwh
            injection h with h1 h2
            obtain ⟨⟨hf, ht⟩, -⟩ := by simpa only [Bool.and_eq_true] using hguard
            exact ⟨r, heq, hf, ht, hcont, hwh, h1.symm⟩
          · exact absurd (congrArg Prod.snd h) (by simp)
      · exact absurd (congrArg Prod.snd h) (by simp)
  · exact absurd (congrArg Prod.snd h) (by simp)

theorem transfer_err {db db' : DB} {fS tS ridS lS : String} {e : AppError}
    (h : transfer_form db fS tS ridS lS = (db', some e)) : db' = db := by
  simp only [transfer_form] at h
  repeat' split at h
  all_goals injection h with h1 h2
  all_goals try simp at h2
  all_goals exact h1.symm

theorem add_ok {db db' : DB} {whS ptS ridS wS locS : String}
    (h : add_form db whS ptS ridS wS locS = (db', none)) :
    ∃ w, parse_weight wS = some w ∧
      (pyUpper (clean whS) == "WH1" || pyUpper (clean whS) == "WH2") = true ∧
      (locations_for (pyUpper (clean whS))).contains (clean locS) = true ∧
      (clean ridS == "") = false ∧
      findRoll db (clean ridS) = none ∧
      db' = logMovement
        (insertRoll db
          { roll_id := clean ridS, paper_type := clean ptS, weight := w,
            warehouse := pyUpper (clean whS), location := clean locS })
        { roll_id := clean ridS, action := "ADD", from_wh := pyUpper (clean whS),
          to_wh := pyUpper (clean whS), from_loc := clean locS, to_loc := clean locS } := by
  simp only [add_form] at h
  split at h
  · rename_i hwh
    split at h
    · exact absurd (congrArg Prod.snd h) (by simp)
    · rename_i w hw
      split at h
      · exact absurd (congrArg Prod.snd h) (by simp)
      · rename_i hne
        split at h
        · rename_i hcont
          split at h
          · exact absurd (congrArg Prod.snd h) (by simp)
          · rename_i heq
            injection h with h1 h2
            have hridne : (clean ridS == "") = false := by
              cases hb : (clean ridS == "") with
              | false => rfl
              | true => exact absurd (by simp [hb]) hne
            exact ⟨w, hw, hwh, hcont, hridne, heq, h1.symm⟩
        · exact absurd (congrArg Prod.snd h) (by simp)
  · exact absurd (congrArg Prod.snd h) (by simp)

theorem add_err {db db' : DB} {whS ptS ridS wS locS : String} {e : AppError}
    (h : add_form db whS ptS ridS wS locS = (db', some e)) : db' = db := by
  simp only [add_form] at h
  repeat' split at h
  all_goals injection h with h1 h2
  all_goals try simp at h2
  all_goals exact h1.symm

theorem edit_ok {db db' : DB} {ridS whS locS ptS wS : String}
    (h : edit_roll_form db ridS whS locS ptS wS = (db', none)) :
    ∃ r w lc,
      findRoll db (clean ridS) = some r ∧
      (pyUpper (clean whS) == "WH1" || pyUpper (clean whS) == "WH2"
        || pyUpper (clean whS) == "USED") = true ∧
      (if (clean wS == "") = true then some r.weight else parse_weight (clean wS))
        = some w ∧
      ((pyUpper (clean whS) = "USED" ∧ lc = "USED")
        ∨ (¬ pyUpper (clean whS) = "USED" ∧ lc = clean locS
            ∧ (locations_for (pyUpper (clean whS))).contains lc = true)) ∧
      db' = logMovement
        (updateRollFull db (clean ridS) (clean ptS) w (pyUpper (clean whS)) lc)
        { roll_id := clean ridS, action := "EDIT_MOVE", from_wh := r.warehouse,
          to_wh := pyUpper (clean whS), from_loc := r.location, to_loc := lc } := by
  simp only [edit_roll_form] at h
  split at h
  · exact absurd (congrArg Prod.snd h) (by simp)
  · rename_i r heq
    split at h
    · rename_i hall
      split at h
      · exact absurd (congrArg Prod.snd h) (by simp)
      · rename_i w hwm
        split at h
        · exact absurd (congrArg Prod.snd h) (by simp)
        · rename_i hpt
          split at h
          · rename_i hused
            injection h with h1 h2
            have hu : pyUpper (clean whS) = "USED" := beq_iff_eq.mp hused
            refine ⟨r, w, "USED", heq, hall, hwm, Or.inl ⟨hu, rfl⟩, ?_⟩
            rw [hu]
            exact h1.symm
          · rename_i hused
            split at h
            · rename_i hcont
              injection h with h1 h2
              have hu : ¬ pyUpper (clean whS) = "USED" := fun hc => by
                rw [hc] at hused
                exact hused (by simp)
              exact ⟨r, w, clean locS, heq, hall, hwm, Or.inr ⟨hu, rfl, hcont⟩, h1.symm⟩
            · exact absurd (congrArg Prod.snd h) (by simp)
    · exact absurd (congrArg Prod.snd h) (by simp)

theorem edit_err {db db' : DB} {ridS whS locS ptS wS : String} {e : AppError}
    (h : edit_roll_form db ridS whS locS ptS wS = (db', some e)) : db' = db := by
  simp only [edit_roll_form] at h
  repeat' split at h
  all_goals injection h with h1 h2
  all_goals try simp at h2
  all_goals exact h1.symm

/-! ### Preservation of the location-closure invariant -/

theorem validPair_of_wh12 {wh loc : String}
    (hwh : (wh == "WH1" || wh == "WH2") = true)
    (hc : (locations_for wh).contains loc = true) :
    validPair wh loc = true := by
  rcases Bool.or_eq_true_iff.mp hwh with h | h
  · have hw : wh = "WH1" := beq_iff_eq.mp h
    subst hw
    have e : locations_for "WH1" = WH1_LOCS := by decide
    rw [e] at hc
    have e2 : whLocations "WH1" = some WH1_LOCS := by decide
    unfold validPair
    rw [e2]
    exact hc
  · have hw : wh = "WH2" := beq_iff_eq.mp h
    subst hw
    have e : locations_for "WH2" = WH2_LOCS := by decide
    rw [e] at hc
    have e2 : whLocations "WH2" = some WH2_LOCS := by decide
    unfold validPair
    rw [e2]
    exact hc

theorem validPair_used : validPair "USED" "USED" = true := by decide

theorem locationsClosed_logMovement {db : DB} (m : Movement)
    (h : LocationsClosed db) : LocationsClosed (logMovement db m) := h

theorem locationsClosed_insertRoll {db : DB} {r : Roll} (h : LocationsClosed db)
    (hr : validPair r.warehouse r.location = true) :
    LocationsClosed (insertRoll db r) := by
  intro x hx
  rcases List.mem_append.mp hx with hx | hx
  · exact h x hx
  · rw [List.mem_singleton.mp hx]
    exact hr

theorem locationsClosed_updateRollLocation {db : DB} (rid : String) {wh lc : String}
    (h : LocationsClosed db) (hp : validPair wh lc = true) :
    LocationsClosed (updateRollLocation db rid wh lc) := by
  intro x hx
  rcases List.mem_map.mp hx with ⟨r, hr, hrx⟩
  rw [← hrx]
  unfold updateLocFn
  split
  · exact hp
  · exact h r hr

theorem locationsClosed_updateRollFull {db : DB} (rid pt : String) (w : Int) {wh lc : String}
    (h : LocationsClosed db) (hp : validPair wh lc = true) :
    LocationsClosed (updateRollFull db rid pt w wh lc) := by
  intro x hx
  rcases List.mem_map.mp hx with ⟨r, hr, hrx⟩
  rw [← hrx]
  unfold updateFullFn
  split
  · exact hp
  · exact h r hr

theorem locationsClosed_deleteRollRow {db : DB} (rid : String) (h : LocationsClosed db) :
    LocationsClosed (deleteRollRow db rid) := by
  intro x hx
  exact h x (List.mem_filter.mp hx).1

theorem locationsClosed_batchStep {acc : BatchResult} (rid : String)
    (h : LocationsClosed acc.db) : LocationsClosed (batchStep acc rid).db := by
  cases hf : findRoll acc.db rid with
  | none => rw [batchStep_missing hf]; exact h
  | some r =>
    rw [batchStep_found hf]
    exact locationsClosed_logMovement _
      (locationsClosed_updateRollLocation rid h validPair_used)

theorem locationsClosed_batchFold (ids : List String) (acc : BatchResult)
    (h : LocationsClosed acc.db) :
    LocationsClosed (ids.foldl batchStep acc).db := by
  induction ids generalizing acc with
  | nil => exact h
  | cons x xs ih =>
    rw [List.foldl_cons]
    exact ih _ (locationsClosed_batchStep x h)

/-- All handlers preserve location closure; hence every reachable store is closed. -/
theorem reachable_locationsClosed {db : DB} (h : Reachable db) : LocationsClosed db := by
  induction h with
  | init => intro r hr; exact absurd hr (List.not_mem_nil r)
  | add _ hs ih =>
    obtain ⟨w, hw, hwh, hcont, hridne, hfind, rfl⟩ := add_ok hs
    exact locationsClosed_logMovement _
      (locationsClosed_insertRoll ih (validPair_of_wh12 hwh hcont))
  | edit _ hs ih =>
    obtain ⟨r, w, lc, heq, hall, hwm, hchoice, rfl⟩ := edit_ok hs
    refine locationsClosed_logMovement _ (locationsClosed_updateRollFull _ _ _ ih ?_)
    rcases hchoice with ⟨hu, rfl⟩ | ⟨hu, rfl, hcont⟩
    · rw [hu]; exact validPair_used
    · refine validPair_of_wh12 ?_ hcont
      rcases Bool.or_eq_true_iff.mp hall with h12 | hU
    -- `hall` is left-associated: ((WH1 ∨ WH2) ∨ USED)
      · exact h12
      · exact absurd (beq_iff_eq.mp hU) hu
  | toUsed _ hs ih =>
    obtain ⟨r, heq, rfl⟩ := to_used_ok hs
    exact locationsClosed_logMovement _
      (locationsClosed_updateRollLocation _ ih validPair_used)
  | del _ hs ih =>
    obtain ⟨r, heq, rfl⟩ := delete_ok hs
    exact locationsClosed_deleteRollRow _ (locationsClosed_logMovement _ ih)
  | transfer _ hs ih =>
    obtain ⟨r, heq, hf, ht, hcont, hwh, rfl⟩ := transfer_ok hs
    exact locationsClosed_logMovement _
      (locationsClosed_updateRollLocation _ ih (validPair_of_wh12 ht hcont))
  | remove _ hs ih =>
    obtain ⟨r, hne, heq, rfl⟩ := remove_ok hs
    exact locationsClosed_logMovement _
      (locationsClosed_updateRollLocation _ ih validPair_used)
  | batch _ hs ih =>
    have := congrArg Prod.fst hs
    simp only [remove_batch_form] at this
    split at this
    · rw [← this]; exact ih
    · rw [← this]
      exact locationsClosed_batchFold _ _ ih

/-! ### Deduplication and the batch loop -/

theorem dedupFirstAux_spec :
    ∀ (l seen : List String),
      (dedupFirstAux l seen).Nodup ∧ ∀ x ∈ dedupFirstAux l seen, x ∉ seen := by
  intro l
  induction l with
  | nil => intro seen; exact ⟨List.nodup_nil, by simp [dedupFirstAux]⟩
  | cons a as ih =>
    intro seen
    unfold dedupFirstAux
    split
    · exact ih seen
    · rename_i hmem
      obtain ⟨hnd, hni⟩ := ih (a :: seen)
      refine ⟨List.nodup_cons.mpr ⟨fun hx => (hni a hx) (List.mem_cons_self a seen), hnd⟩, ?_⟩
      intro x hx
      rcases List.mem_cons.mp hx with rfl | hx
      · exact hmem
      · exact fun hxseen => hni x hx (List.mem_cons_of_mem a hxseen)

theorem dedupFirst_nodup (l : List String) : (dedupFirst l).Nodup :=
  (dedupFirstAux_spec l []).1

theorem mem_dedupFirstAux :
    ∀ (l seen : List String) (x : String), x ∈ l → x ∉ seen → x ∈ dedupFirstAux l seen := by
  intro l
  induction l with
  | nil => intro seen x hx; exact absurd hx (List.not_mem_nil x)
  | cons a as ih =>
    intro seen x hx hxs
    unfold dedupFirstAux
    split
    · rename_i hmem
      rcases List.mem_cons.mp hx with rfl | hx
      · exact absurd hmem hxs
      · exact ih seen x hx hxs
    · rename_i hmem
      rcases List.mem_cons.mp hx with rfl | hx
      · exact List.mem_cons_self x _
      · by_cases hxa : x = a
        · subst hxa; exact List.mem_cons_self x _
        · refine List.mem_cons_of_mem a (ih (a :: seen) x hx ?_)
          intro hmem2
          rcases List.mem_cons.mp hmem2 with h | h
          · exact hxa h
          · exact hxs h

theorem mem_dedupFirst {l : List String} {x : String} (h : x ∈ l) : x ∈ dedupFirst l :=
  mem_dedupFirstAux l [] x h (List.not_mem_nil x)

theorem filter_movements_logMovement_ne {db : DB} {m : Movement} {rid : String}
    (h : (m.roll_id == rid) = false) :
    (logMovement db m).movements.filter (fun mv => mv.roll_id == rid)
      = db.movements.filter (fun mv => mv.roll_id == rid) := by
  simp [List.filter_append, List.filter, h]

theorem filter_movements_logMovement_eq {db : DB} {m : Movement} {rid : String}
    (h : (m.roll_id == rid) = true) :
    (logMovement db m).movements.filter (fun mv => mv.roll_id == rid)
      = db.movements.filter (fun mv => mv.roll_id == rid) ++ [m] := by
  simp [List.filter_append, List.filter, h]

theorem findRoll_batchStep_ne {acc : BatchResult} {x rid : String} (h : rid ≠ x) :
    findRoll (batchStep acc x).db rid = findRoll acc.db rid := by
  cases hf : findRoll acc.db x with
  | none => rw [batchStep_missing hf]
  | some r =>
    rw [batchStep_found hf]
    show findRoll (logMovement (updateRollLocation acc.db x "USED" "USED") _) rid
      = findRoll acc.db rid
    rw [findRoll_logMovement]
    exact findRoll_updateRollLocation_ne _ _ _ h

/-- Master lemma on the batch loop over a duplicate-free id list: the missing
list and moved counter collect exactly the absent and present ids, rolls
outside the list are untouched, and every present id ends at USED with exactly
one extra ledger entry. -/
theorem batch_fold :
    ∀ (ids : List String) (acc : BatchResult), ids.Nodup →
      ((ids.foldl batchStep acc).missing
          = acc.missing ++ ids.filter (fun rid => (findRoll acc.db rid).isNone))
      ∧ ((ids.foldl batchStep acc).moved
          = acc.moved + (ids.filter (fun rid => (findRoll acc.db rid).isSome)).length)
      ∧ (∀ rid, rid ∉ ids →
            findRoll (ids.foldl batchStep acc).db rid = findRoll acc.db rid
          ∧ (ids.foldl batchStep acc).db.movements.filter (fun m => m.roll_id == rid)
              = acc.db.movements.filter (fun m => m.roll_id == rid))
      ∧ (∀ rid ∈ ids, ∀ r, findRoll acc.db rid = some r →
            findRoll (ids.foldl batchStep acc).db rid
              = some { r with warehouse := "USED", location := "USED" }
          ∧ ((ids.foldl batchStep acc).db.movements.filter
                (fun m => m.roll_id == rid)).length
              = (acc.db.movements.filter (fun m => m.roll_id == rid)).length + 1) := by
  intro ids
  induction ids with
  | nil =>
    intro acc _
    exact ⟨by simp, by simp, fun rid _ => ⟨rfl, rfl⟩,
      fun rid hr => absurd hr (List.not_mem_nil rid)⟩
  | cons x xs ih =>
    intro acc hnd
    obtain ⟨hxn, hnd'⟩ := List.nodup_cons.mp hnd
    rw [List.foldl_cons]
    obtain ⟨ihm, ihv, ihout, ihin⟩ := ih (batchStep acc x) hnd'
    cases hf : findRoll acc.db x with
    | none =>
      rw [batchStep_missing hf] at ihm ihv ihout ihin
      try dsimp only at ihm ihv ihout ihin
      rw [batchStep_missing hf]
      refine ⟨?_, ?_, ?_, ?_⟩
      · rw [ihm, List.filter_cons]
        simp [hf, List.append_assoc]
      · rw [ihv, List.filter_cons]
        simp [hf]
      · intro rid hrid
        have hrx : rid ∉ xs := fun hc => hrid (List.mem_cons_of_mem x hc)
        exact ihout rid hrx
      · intro rid hrid r hr
        rcases List.mem_cons.mp hrid with rfl | hrid
        · rw [hf] at hr; exact absurd hr (by simp)
        · exact ihin rid hrid r hr
    | some r0 =>
      rw [batchStep_found hf] at ihm ihv ihout ihin
      try dsimp only at ihm ihv ihout ihin
      rw [batchStep_found hf]
      try dsimp only
      have hdb1 : ∀ rid, rid ≠ x →
          findRoll (logMovement (updateRollLocation acc.db x "USED" "USED")
            { roll_id := x, action := "BATCH_REMOVE_TO_USED", from_wh := r0.warehouse,
              to_wh := "USED", from_loc := r0.location, to_loc := "USED" }) rid
            = findRoll acc.db rid := by
        intro rid hne
        rw [findRoll_logMovement]
        exact findRoll_updateRollLocation_ne _ _ _ hne
      have hne_of_mem : ∀ rid ∈ xs, rid ≠ x := fun rid hr hc => hxn (hc ▸ hr)
      have hfiltN :
          xs.filter (fun rid =>
              (findRoll (logMovement (updateRollLocation acc.db x "USED" "USED")
                { roll_id := x, action := "BATCH_REMOVE_TO_USED", from_wh := r0.warehouse,
                  to_wh := "USED", from_loc := r0.location, to_loc := "USED" }) rid).isNone)
            = xs.filter (fun rid => (findRoll acc.db rid).isNone) :=
        List.filter_congr (fun rid hr => by rw [hdb1 rid (hne_of_mem rid hr)])
      have hfiltS :
          xs.filter (fun rid =>
              (findRoll (logMovement (updateRollLocation acc.db x "USED" "USED")
                { roll_id := x, action := "BATCH_REMOVE_TO_USED", from_wh := r0.warehouse,
                  to_wh := "USED", from_loc := r0.location, to_loc := "USED" }) rid).isSome)
            = xs.filter (fun rid => (findRoll acc.db rid).isSome) :=
        List.filter_congr (fun rid hr => by rw [hdb1 rid (hne_of_mem rid hr)])
      have hmv_ne : ∀ rid, rid ≠ x →
          (logMovement (updateRollLocation acc.db x "USED" "USED")
            { roll_id := x, action := "BATCH_REMOVE_TO_USED", from_wh := r0.warehouse,
              to_wh := "USED", from_loc := r0.location, to_loc := "USED" }).movements.filter
              (fun m => m.roll_id == rid)
            = acc.db.movements.filter (fun m => m.roll_id == rid) := by
        intro rid hne
        have hb : (x == rid) = false := by
          simp only [beq_eq_false_iff_ne]
          exact fun hc => hne hc.symm
        rw [filter_movements_logMovement_ne hb]
        rfl
      refine ⟨?_, ?_, ?_, ?_⟩
      · rw [ihm, hfiltN, List.filter_cons]
        simp [hf]
      · rw [ihv, hfiltS, List.filter_cons]
        simp [hf]
        omega
      · intro rid hrid
        have hne : rid ≠ x := fun hc => hrid (hc ▸ List.mem_cons_self x xs)
        have hrx : rid ∉ xs := fun hc => hrid (List.mem_cons_of_mem x hc)
        obtain ⟨h1, h2⟩ := ihout rid hrx
        exact ⟨h1.trans (hdb1 rid hne), h2.trans (hmv_ne rid hne)⟩
      · intro rid hrid r hr
        rcases List.mem_cons.mp hrid with rfl | hrid
        · have hrr : r = r0 := by rw [hf] at hr; exact (Option.some.inj hr).symm
          subst hrr
          obtain ⟨h1, h2⟩ := ihout rid hxn
          constructor
          · rw [h1, findRoll_logMovement]
            exact findRoll_updateRollLocation_self hf "USED" "USED"
          · rw [h2, filter_movements_logMovement_eq (by simp)]
            simp
        · have hne : rid ≠ x := hne_of_mem rid hrid
          obtain ⟨h1, h2⟩ := ihin rid hrid r (by rw [hdb1 rid hne]; exact hr)
          exact ⟨h1, by rw [h2, hmv_ne rid hne]⟩

/-! ### Reachability of the concrete stores -/

theorem exDb1_reachable : Reachable exDb1 :=
  Reachable.add Reachable.init
    (show add_form dbEmpty "WH1" "KRAFT" "R1" "100" "02" = (exDb1, none) by decide)

theorem exDb2_reachable : Reachable exDb2 :=
  Reachable.remove exDb1_reachable
    (show remove_form exDb1 "R1" = (exDb2, none) by decide)

/-- Store after an edit of `exDb1` that keeps the location unchanged. -/
def exDb1Edited : DB :=
  { rolls := [rollR1],
    movements :=
      [{ roll_id := "R1", action := "ADD", from_wh := "WH1", to_wh := "WH1",
         from_loc := "02", to_loc := "02" },
       { roll_id := "R1", action := "EDIT_MOVE", from_wh := "WH1", to_wh := "WH1",
         from_loc := "02", to_loc := "02" }] }

/-! ### The claims -/

/-- C1: every successful mutating operation (add, transfer, move-to-used,
remove, batch-remove item, edit, delete) appends exactly one movement in the
same transaction, whose from-fields equal the roll's pre-operation warehouse
and sub-location and whose to-fields equal the post-operation ones; for an ADD
the from-fields equal the initial location, and for a DELETE the to-fields
equal the last known location. -/
theorem C1_ledger_completeness :
    (∀ db db' whS ptS ridS wS locS, add_form db whS ptS ridS wS locS = (db', none) →
      ∃ m r', db'.movements = db.movements ++ [m]
        ∧ findRoll db' (clean ridS) = some r'
        ∧ m.from_wh = r'.warehouse ∧ m.from_loc = r'.location
        ∧ m.to_wh = r'.warehouse ∧ m.to_loc = r'.location)
  ∧ (∀ db db' fS tS ridS lS, transfer_form db fS tS ridS lS = (db', none) →
      ∃ m r r', db'.movements = db.movements ++ [m]
        ∧ findRoll db (clean ridS) = some r
        ∧ findRoll db' (clean ridS) = some r'
        ∧ m.from_wh = r.warehouse ∧ m.from_loc = r.location
        ∧ m.to_wh = r'.warehouse ∧ m.to_loc = r'.location)
  ∧ (∀ db db' ridS, to_used_pc db ridS = (db', none) →
      ∃ m r r', db'.movements = db.movements ++ [m]
        ∧ findRoll db (clean ridS) = some r
        ∧ findRoll db' (clean ridS) = some r'
        ∧ m.from_wh = r.warehouse ∧ m.from_loc = r.location
        ∧ m.to_wh = r'.warehouse ∧ m.to_loc = r'.location)
  ∧ (∀ db db' ridS, remove_form db ridS = (db', none) →
      ∃ m r r', db'.movements = db.movements ++ [m]
        ∧ findRoll db (clean ridS) = some r
        ∧ findRoll db' (clean ridS) = some r'
        ∧ m.from_wh = r.warehouse ∧ m.from_loc = r.location
        ∧ m.to_wh = r'.warehouse ∧ m.to_loc = r'.location)
  ∧ (∀ acc rid r, findRoll acc.db rid = some r →
      ∃ m r', (batchStep acc rid).db.movements = acc.db.movements ++ [m]
        ∧ findRoll (batchStep acc rid).db rid = some r'
        ∧ m.from_wh = r.warehouse ∧ m.from_loc = r.location
        ∧ m.to_wh = r'.warehouse ∧ m.to_loc = r'.location)
  ∧ (∀ db db' ridS whS locS ptS wS,
      edit_roll_form db ridS whS locS ptS wS = (db', none) →
      ∃ m r r', db'.movements = db.movements ++ [m]
        ∧ findRoll db (clean ridS) = some r
        ∧ findRoll db' (clean ridS) = some r'
        ∧ m.from_wh = r.warehouse ∧ m.from_loc = r.location
        ∧ m.to_wh = r'.warehouse ∧ m.to_loc = r'.location)
  ∧ (∀ db db' ridS, delete_roll_pc db ridS = (db', none) →
      ∃ m r, db'.movements = db.movements ++ [m]
        ∧ findRoll db (clean ridS) = some r
        ∧ m.from_wh = r.warehouse ∧ m.from_loc = r.location
        ∧ m.to_wh = r.warehouse ∧ m.to_loc = r.location) := by
  refine ⟨?_, ?_, ?_, ?_, ?_, ?_, ?_⟩
  · intro db db' whS ptS ridS wS locS h
    obtain ⟨w, hw, hwh, hcont, hridne, hfind, rfl⟩ := add_ok h
    refine ⟨{ roll_id := clean ridS, action := "ADD", from_wh := pyUpper (clean whS),
              to_wh := pyUpper (clean whS), from_loc := clean locS, to_loc := clean locS },
            { roll_id := clean ridS, paper_type := clean ptS, weight := w,
              warehouse := pyUpper (clean whS), location := clean locS },
            by simp, ?_, rfl, rfl, rfl, rfl⟩
    rw [findRoll_logMovement, findRoll_insert_of_none _ hfind]
    simp
  · intro db db' fS tS ridS lS h
    obtain ⟨r, heq, hf, ht, hcont, hwh, rfl⟩ := transfer_ok h
    refine ⟨{ roll_id := clean ridS, action := "TRANSFER", from_wh := pyUpper (clean fS),
              to_wh := pyUpper (clean tS), from_loc := r.location, to_loc := clean lS },
            r, { r with warehouse := pyUpper (clean tS), location := clean lS },
            by simp, heq, ?_, (beq_iff_eq.mp hwh).symm, rfl, rfl, rfl⟩
    rw [findRoll_logMovement]
    exact findRoll_updateRollLocation_self heq _ _
  · intro db db' ridS h
    obtain ⟨r, heq, rfl⟩ := to_used_ok h
    refine ⟨{ roll_id := clean ridS, action := "TO_USED_PC", from_wh := r.warehouse,
              to_wh := "USED", from_loc := r.location, to_loc := "USED" },
            r, { r with warehouse := "USED", location := "USED" },
            by simp, heq, ?_, rfl, rfl, rfl, rfl⟩
    rw [findRoll_logMovement]
    exact findRoll_updateRollLocation_self heq _ _
  · intro db db' ridS h
    obtain ⟨r, hne, heq, rfl⟩ := remove_ok h
    refine ⟨{ roll_id := clean ridS, action := "REMOVE_TO_USED", from_wh := r.warehouse,
              to_wh := "USED", from_loc := r.location, to_loc := "USED" },
            r, { r with warehouse := "USED", location := "USED" },
            by simp, heq, ?_, rfl, rfl, rfl, rfl⟩
    rw [findRoll_logMovement]
    exact findRoll_updateRollLocation_self heq _ _
  · intro acc rid r hf
    rw [batchStep_found hf]
    refine ⟨{ roll_id := rid, action := "BATCH_REMOVE_TO_USED", from_wh := r.warehouse,
              to_wh := "USED", from_loc := r.location, to_loc := "USED" },
            { r with warehouse := "USED", location := "USED" },
            by simp, ?_, rfl, rfl, rfl, rfl⟩
    show findRoll (logMovement (updateRollLocation acc.db rid "USED" "USED") _) rid = _
    rw [findRoll_logMovement]
    exact findRoll_updateRollLocation_self hf _ _
  · intro db db' ridS whS locS ptS wS h
    obtain ⟨r, w, lc, heq, hall, hwm, hchoice, rfl⟩ := edit_ok h
    refine ⟨{ roll_id := clean ridS, action := "EDIT_MOVE", from_wh := r.warehouse,
              to_wh := pyUpper (clean whS), from_loc := r.location, to_loc := lc },
            r, { r with paper_type := clean ptS, weight := w,
                        warehouse := pyUpper (clean whS), location := lc },
            by simp, heq, ?_, rfl, rfl, rfl, rfl⟩
    rw [findRoll_logMovement]
    exact findRoll_updateRollFull_self heq _ _ _ _
  · intro db db' ridS h
    obtain ⟨r, heq, rfl⟩ := delete_ok h
    exact ⟨{ roll_id := clean ridS, action := "DELETE", from_wh := r.warehouse,
             to_wh := r.warehouse, from_loc := r.location, to_loc := r.location },
           r, by simp, heq, rfl, rfl, rfl, rfl⟩

/-- C1 witness: a concrete successful ADD on the empty store appends exactly
one movement whose from- and to-fields are the initial location. -/
theorem C1_ledger_completeness_witness :
    add_form dbEmpty "WH1" "KRAFT" "R1" "100" "02" = (exDb1, none) ∧
    (∃ m r', exDb1.movements = dbEmpty.movements ++ [m]
      ∧ findRoll exDb1 (clean "R1") = some r'
      ∧ m.from_wh = r'.warehouse ∧ m.from_loc = r'.location
      ∧ m.to_wh = r'.warehouse ∧ m.to_loc = r'.location) :=
  ⟨by decide,
   C1_ledger_completeness.1 dbEmpty exDb1 "WH1" "KRAFT" "R1" "100" "02" (by decide)⟩

/-- C2 (amended): every roll of every reachable store sits at one of the
enumerated pairs of `WH_LOCATIONS`: WH1 with one of its 14 codes, WH2 with one
of the codes 20..30, or the terminal USED bucket — which carries the fixed
sub-location code "USED" rather than an empty sub-location. -/
theorem C2_location_closure (db : DB) (h : Reachable db) :
    ∀ r ∈ db.rolls, validPair r.warehouse r.location = true :=
  reachable_locationsClosed h

/-- C2 witness: a concrete reachable store with a terminal roll satisfies the
code's pair enumeration. -/
theorem C2_location_closure_witness : validPair "USED" "USED" = true :=
  C2_location_closure exDb2 exDb2_reachable
    { roll_id := "R1", paper_type := "KRAFT", weight := 100,
      warehouse := "USED", location := "USED" } (by decide)

/-- C2 counterexample: a reachable store (add then remove) holds a roll at
(USED, "USED"), whose sub-location is not empty — outside the enumeration as
the spec words it (terminal locations carry no sub-location). -/
theorem C2_location_closure_counterexample :
    Reachable exDb2 ∧
    ¬ (∀ r ∈ exDb2.rolls, validPairSpec r.warehouse r.location = true) :=
  ⟨exDb2_reachable, by decide⟩

/-- C3: every operation that fails returns the store unchanged — validation
errors are detected before any write, so the targeted roll and the ledger are
untouched. -/
theorem C3_failed_ops_unchanged :
    (∀ db db' whS ptS ridS wS locS e,
      add_form db whS ptS ridS wS locS = (db', some e) → db' = db)
  ∧ (∀ db db' ridS whS locS ptS wS e,
      edit_roll_form db ridS whS locS ptS wS = (db', some e) → db' = db)
  ∧ (∀ db db' ridS e, to_used_pc db ridS = (db', some e) → db' = db)
  ∧ (∀ db db' ridS e, delete_roll_pc db ridS = (db', some e) → db' = db)
  ∧ (∀ db db' fS tS ridS lS e,
      transfer_form db fS tS ridS lS = (db', some e) → db' = db)
  ∧ (∀ db db' ridS e, remove_form db ridS = (db', some e) → db' = db)
  ∧ (∀ db res rawS e, remove_batch_form db rawS = (res, some e) → res.db = db) := by
  refine ⟨?_, ?_, ?_, ?_, ?_, ?_, ?_⟩
  · intro db db' whS ptS ridS wS locS e h
    exact add_err h
  · intro db db' ridS whS locS ptS wS e h
    exact edit_err h
  · intro db db' ridS e h
    exact to_used_err h
  · intro db db' ridS e h
    exact delete_err h
  · intro db db' fS tS ridS lS e h
    exact transfer_err h
  · intro db db' ridS e h
    exact remove_err h
  · intro db res rawS e h
    simp only [remove_batch_form] at h
    split at h
    · injection h with h1 h2
      rw [← h1]
    · injection h with h1 h2
      exact Option.noConfusion h2

/-- C3 witness: a concrete rejected ADD (invalid warehouse) leaves the empty
store untouched. -/
theorem C3_failed_ops_unchanged_witness :
    add_form dbEmpty "WH3" "KRAFT" "R1" "100" "02"
      = (dbEmpty, some AppError.invalidWarehouse) ∧ dbEmpty = dbEmpty :=
  ⟨by decide,
   C3_failed_ops_unchanged.1 dbEmpty dbEmpty "WH3" "KRAFT" "R1" "100" "02"
     AppError.invalidWarehouse (by decide) ▸ rfl⟩

/-- C4 (amended): after a successful Create, a second Create whose cleaned
(whitespace-stripped) id is byte-identical — comparison is case-sensitive, the
code never uppercases roll ids — and whose other fields pass validation fails
with DuplicateID and leaves the store unchanged. -/
theorem C4_duplicate_id (db db' : DB)
    (whS ptS ridS wS locS whS2 ptS2 ridS2 wS2 locS2 : String)
    (h1 : add_form db whS ptS ridS wS locS = (db', none))
    (hid : clean ridS2 = clean ridS)
    (hwh2 : (pyUpper (clean whS2) == "WH1" || pyUpper (clean whS2) == "WH2") = true)
    (hw2 : ∃ w2, parse_weight wS2 = some w2)
    (hpt2 : (clean ptS2 == "") = false)
    (hloc2 : (clean locS2 == "") = false)
    (hcont2 : (locations_for (pyUpper (clean whS2))).contains (clean locS2) = true) :
    add_form db' whS2 ptS2 ridS2 wS2 locS2 = (db', some AppError.duplicateID) := by
  obtain ⟨w, hw, hwh, hcont, hridne, hfind, rfl⟩ := add_ok h1
  obtain ⟨w2, hw2⟩ := hw2
  have hfound : findRoll
      (logMovement
        (insertRoll db
          { roll_id := clean ridS, paper_type := clean ptS, weight := w,
            warehouse := pyUpper (clean whS), location := clean locS })
        { roll_id := clean ridS, action := "ADD", from_wh := pyUpper (clean whS),
          to_wh := pyUpper (clean whS), from_loc := clean locS, to_loc := clean locS })
      (clean ridS)
      = some { roll_id := clean ridS, paper_type := clean ptS, weight := w,
               warehouse := pyUpper (clean whS), location := clean locS } := by
    rw [findRoll_logMovement, findRoll_insert_of_none _ hfind]
    simp
  simp at hcont2
  simp [add_form, hid, hwh2, hw2, hpt2, hloc2, hcont2, hridne, hfound]

/-- C4 witness: creating the same id "R1" twice (identical case) is rejected
with DuplicateID and the store is unchanged. -/
theorem C4_duplicate_id_witness :
    add_form exDb1 "WH1" "KRAFT" "R1" "100" "02"
      = (exDb1, some AppError.duplicateID) :=
  C4_duplicate_id dbEmpty exDb1 "WH1" "KRAFT" "R1" "100" "02"
    "WH1" "KRAFT" "R1" "100" "02"
    (by decide) (by decide) (by decide) ⟨100, by decide⟩ (by decide) (by decide)
    (by decide)

/-- C4 counterexample: ids are not case-normalized — after creating "r1",
creating "R1" (the same id up to letter case) succeeds instead of failing
with DuplicateID. -/
theorem C4_duplicate_id_counterexample :
    (add_form dbEmpty "WH1" "KRAFT" "r1" "100" "02").2 = none ∧
    (add_form (add_form dbEmpty "WH1" "KRAFT" "r1" "100" "02").1
        "WH1" "KRAFT" "R1" "100" "02").2 = none := by
  decide

/-- C5 (amended): a directional transfer of a roll that is not in the stated
source warehouse never changes the store and never appends a movement; it
fails with LocationMismatch when the requested destination sub-location is
valid, but with InvalidSubLocation (checked before the roll is even read)
when it is not. -/
theorem C5_location_mismatch (db : DB) (fS tS ridS lS : String) (r : Roll)
    (hfw : (pyUpper (clean fS) == "WH1" || pyUpper (clean fS) == "WH2") = true)
    (htw : (pyUpper (clean tS) == "WH1" || pyUpper (clean tS) == "WH2") = true)
    (hne : (pyUpper (clean fS) == pyUpper (clean tS)) = false)
    (hrid : (clean ridS == "") = false)
    (hloc : (clean lS == "") = false)
    (hfind : findRoll db (clean ridS) = some r)
    (hmm : (r.warehouse == pyUpper (clean fS)) = false) :
    ((locations_for (pyUpper (clean tS))).contains (clean lS) = true →
      transfer_form db fS tS ridS lS = (db, some AppError.locationMismatch))
    ∧ ((locations_for (pyUpper (clean tS))).contains (clean lS) = false →
      transfer_form db fS tS ridS lS = (db, some AppError.invalidSubLocation)) := by
  constructor
  · intro hcont
    simp at hcont
    simp [transfer_form, hfw, htw, hne, hrid, hloc, hcont, hfind, hmm]
  · intro hcont
    simp at hcont
    simp [transfer_form, hfw, htw, hne, hrid, hloc, hcont]

/-- C5 witness: a roll sitting in WH1, transferred "from WH2 to WH1" with a
valid destination code, is rejected with LocationMismatch and nothing changes. -/
theorem C5_location_mismatch_witness :
    transfer_form exDb1 "WH2" "WH1" "R1" "05"
      = (exDb1, some AppError.locationMismatch) :=
  (C5_location_mismatch exDb1 "WH2" "WH1" "R1" "05" rollR1
    (by decide) (by decide) (by decide) (by decide) (by decide) (by decide)
    (by decide)).1 (by decide)

/-- C5 counterexample: with an invalid destination sub-location ("99" is not a
WH1 code) the mismatched transfer fails with InvalidSubLocation, not with
LocationMismatch as the claim states. -/
theorem C5_location_mismatch_counterexample :
    transfer_form exDb1 "WH2" "WH1" "R1" "99"
      = (exDb1, some AppError.invalidSubLocation) ∧
    (transfer_form exDb1 "WH2" "WH1" "R1" "99").2
      ≠ some AppError.locationMismatch := by
  decide

/-- C6 (amended): there is no AlreadyTerminal check — a consume/remove
operation (move-to-used, remove, batch-remove item) on a roll already in the
terminal location succeeds: the roll stays at USED/USED and one more movement
from USED to USED is appended (Terminal to Terminal re-removal is permitted). -/
theorem C6_terminal_remove_succeeds :
    (∀ db ridS r, findRoll db (clean ridS) = some r → r.warehouse = "USED" →
      ∃ db', to_used_pc db ridS = (db', none)
        ∧ findRoll db' (clean ridS)
            = some { r with warehouse := "USED", location := "USED" }
        ∧ db'.movements = db.movements ++
            [{ roll_id := clean ridS, action := "TO_USED_PC", from_wh := r.warehouse,
               to_wh := "USED", from_loc := r.location, to_loc := "USED" }])
  ∧ (∀ db ridS r, (clean ridS == "") = false → findRoll db (clean ridS) = some r →
      r.warehouse = "USED" →
      ∃ db', remove_form db ridS = (db', none)
        ∧ findRoll db' (clean ridS)
            = some { r with warehouse := "USED", location := "USED" }
        ∧ db'.movements = db.movements ++
            [{ roll_id := clean ridS, action := "REMOVE_TO_USED", from_wh := r.warehouse,
               to_wh := "USED", from_loc := r.location, to_loc := "USED" }])
  ∧ (∀ acc rid r, findRoll acc.db rid = some r → r.warehouse = "USED" →
      (batchStep acc rid).moved = acc.moved + 1
        ∧ findRoll (batchStep acc rid).db rid
            = some { r with warehouse := "USED", location := "USED" }
        ∧ (batchStep acc rid).db.movements = acc.db.movements ++
            [{ roll_id := rid, action := "BATCH_REMOVE_TO_USED", from_wh := r.warehouse,
               to_wh := "USED", from_loc := r.location, to_loc := "USED" }]) := by
  refine ⟨?_, ?_, ?_⟩
  · intro db ridS r hfind hterm
    refine ⟨logMovement (updateRollLocation db (clean ridS) "USED" "USED")
      { roll_id := clean ridS, action := "TO_USED_PC", from_wh := r.warehouse,
        to_wh := "USED", from_loc := r.location, to_loc := "USED" }, ?_, ?_, ?_⟩
    · simp only [to_used_pc, hfind]
    · rw [findRoll_logMovement]
      exact findRoll_updateRollLocation_self hfind _ _
    · simp
  · intro db ridS r hrid hfind hterm
    refine ⟨logMovement (updateRollLocation db (clean ridS) "USED" "USED")
      { roll_id := clean ridS, action := "REMOVE_TO_USED", from_wh := r.warehouse,
        to_wh := "USED", from_loc := r.location, to_loc := "USED" }, ?_, ?_, ?_⟩
    · simp only [remove_form, hrid, hfind]
      simp
    · rw [findRoll_logMovement]
      exact findRoll_updateRollLocation_self hfind _ _
    · simp
  · intro acc rid r hfind hterm
    rw [batchStep_found hfind]
    refine ⟨rfl, ?_, by simp⟩
    show findRoll (logMovement (updateRollLocation acc.db rid "USED" "USED") _) rid = _
    rw [findRoll_logMovement]
    exact findRoll_updateRollLocation_self hfind _ _

/-- C6 witness: removing a roll that already sits in USED succeeds and logs a
USED-to-USED movement. -/
theorem C6_terminal_remove_succeeds_witness :
    ∃ db', remove_form exDb2 "R1" = (db', none)
      ∧ findRoll db' (clean "R1")
          = some { roll_id := "R1", paper_type := "KRAFT", weight := 100,
                   warehouse := "USED", location := "USED" }
      ∧ db'.movements = exDb2.movements ++
          [{ roll_id := clean "R1", action := "REMOVE_TO_USED", from_wh := "USED",
             to_wh := "USED", from_loc := "USED", to_loc := "USED" }] :=
  C6_terminal_remove_succeeds.2.1 exDb2 "R1"
    { roll_id := "R1", paper_type := "KRAFT", weight := 100,
      warehouse := "USED", location := "USED" }
    (by decide) (by decide) (by decide)

/-- C6 counterexample: a remove on an already-terminal roll does not fail with
any error (no AlreadyTerminal exists) — it succeeds and appends a movement. -/
theorem C6_terminal_remove_succeeds_counterexample :
    (remove_form exDb2 "R1").2 = none ∧
    (remove_form exDb2 "R1").1.movements.length = exDb2.movements.length + 1 := by
  decide

/-- C7 (amended): every successful Edit appends exactly one EDIT_MOVE movement,
whether or not the location changed — a material/weight-only edit is logged
too. -/
theorem C7_edit_always_logs (db db' : DB) (ridS whS locS ptS wS : String)
    (h : edit_roll_form db ridS whS locS ptS wS = (db', none)) :
    ∃ m, db'.movements = db.movements ++ [m] ∧ m.action = "EDIT_MOVE" := by
  obtain ⟨r, w, lc, heq, hall, hwm, hchoice, rfl⟩ := edit_ok h
  exact ⟨{ roll_id := clean ridS, action := "EDIT_MOVE", from_wh := r.warehouse,
           to_wh := pyUpper (clean whS), from_loc := r.location, to_loc := lc },
         by simp, rfl⟩

/-- C7 witness: a concrete edit that changes nothing still succeeds and appends
an EDIT_MOVE movement. -/
theorem C7_edit_always_logs_witness :
    edit_roll_form exDb1 "R1" "WH1" "02" "KRAFT" "100" = (exDb1Edited, none) ∧
    (∃ m, exDb1Edited.movements = exDb1.movements ++ [m] ∧ m.action = "EDIT_MOVE") :=
  ⟨by decide,
   C7_edit_always_logs exDb1 exDb1Edited "R1" "WH1" "02" "KRAFT" "100" (by decide)⟩

/-- C7 counterexample: an edit whose new location equals the current location
(same warehouse WH1 and sub-location 02, only the weight changes) still appends
an EDIT_MOVE movement, contradicting the claim that none is appended. -/
theorem C7_edit_always_logs_counterexample :
    (edit_roll_form exDb1 "R1" "WH1" "02" "KRAFT" "250").2 = none ∧
    (findRoll (edit_roll_form exDb1 "R1" "WH1" "02" "KRAFT" "250").1 "R1").map
        (fun r => (r.warehouse, r.location)) = some ("WH1", "02") ∧
    (edit_roll_form exDb1 "R1" "WH1" "02" "KRAFT" "250").1.movements.length
      = exDb1.movements.length + 1 ∧
    ((edit_roll_form exDb1 "R1" "WH1" "02" "KRAFT" "250").1.movements.getLast?).map
        (fun m => m.action) = some "EDIT_MOVE" := by
  decide

/-- C8: batch remove has per-item semantics: it always succeeds as a whole,
every existing id in the (deduplicated) list is moved to USED and logged
exactly once, every missing id is reported in the missing list, and missing
ids do not abort or roll back the moves of the others; the result reports the
moved total and the missing ids. -/
theorem C8_batch_partial_success (db : DB) (rawS : String)
    (hraw : (clean rawS == "") = false) :
    (remove_batch_form db rawS).2 = none
    ∧ (remove_batch_form db rawS).1.missing
        = (dedupFirst (splitSeps (clean rawS))).filter
            (fun rid => (findRoll db rid).isNone)
    ∧ (remove_batch_form db rawS).1.moved
        = ((dedupFirst (splitSeps (clean rawS))).filter
            (fun rid => (findRoll db rid).isSome)).length
    ∧ (∀ rid ∈ dedupFirst (splitSeps (clean rawS)), ∀ r, findRoll db rid = some r →
        findRoll (remove_batch_form db rawS).1.db rid
          = some { r with warehouse := "USED", location := "USED" }
        ∧ ((remove_batch_form db rawS).1.db.movements.filter
              (fun m => m.roll_id == rid)).length
            = (db.movements.filter (fun m => m.roll_id == rid)).length + 1) := by
  obtain ⟨hm, hv, hout, hin⟩ :=
    batch_fold (dedupFirst (splitSeps (clean rawS)))
      { db := db, moved := 0, missing := [] } (dedupFirst_nodup _)
  have hre : remove_batch_form db rawS
      = ((dedupFirst (splitSeps (clean rawS))).foldl batchStep
          { db := db, moved := 0, missing := [] }, none) := by
    simp [remove_batch_form, hraw]
  rw [hre]
  refine ⟨rfl, ?_, ?_, ?_⟩
  · simpa using hm
  · simpa using hv
  · intro rid hrid r hr
    exact hin rid hrid r hr

/-- C8 witness: a concrete batch over one existing and one unknown id moves the
existing one, reports the other as missing, and does not abort. -/
theorem C8_batch_partial_success_witness :
    (remove_batch_form exDb1 "R1 R9").2 = none ∧
    (remove_batch_form exDb1 "R1 R9").1.missing
      = (dedupFirst (splitSeps (clean "R1 R9"))).filter
          (fun rid => (findRoll exDb1 rid).isNone) :=
  ⟨(C8_batch_partial_success exDb1 "R1 R9" (by decide)).1,
   (C8_batch_partial_success exDb1 "R1 R9" (by decide)).2.1⟩

/-- C10: the batch id list is split on whitespace/commas/semicolons and
deduplicated keeping first occurrences before processing, so each distinct id
is processed once: an existing roll whose id appears several times in the
input is moved and logged exactly once and counted once in the moved total,
and any id is reported missing at most once. -/
theorem C10_batch_dedup (db : DB) (rawS : String)
    (hraw : (clean rawS == "") = false) :
    (remove_batch_form db rawS).2 = none
    ∧ (dedupFirst (splitSeps (clean rawS))).Nodup
    ∧ (∀ rid ∈ splitSeps (clean rawS), ∀ r, findRoll db rid = some r →
        ((remove_batch_form db rawS).1.db.movements.filter
            (fun m => m.roll_id == rid)).length
          = (db.movements.filter (fun m => m.roll_id == rid)).length + 1)
    ∧ (remove_batch_form db rawS).1.moved
        = ((dedupFirst (splitSeps (clean rawS))).filter
            (fun rid => (findRoll db rid).isSome)).length
    ∧ (∀ rid, (remove_batch_form db rawS).1.missing.count rid ≤ 1) := by
  have hnd := dedupFirst_nodup (splitSeps (clean rawS))
  obtain ⟨hm, hv, hout, hin⟩ :=
    batch_fold (dedupFirst (splitSeps (clean rawS)))
      { db := db, moved := 0, missing := [] } hnd
  have hre : remove_batch_form db rawS
      = ((dedupFirst (splitSeps (clean rawS))).foldl batchStep
          { db := db, moved := 0, missing := [] }, none) := by
    simp [remove_batch_form, hraw]
  rw [hre]
  refine ⟨rfl, hnd, ?_, ?_, ?_⟩
  · intro rid hrid r hr
    exact (hin rid (mem_dedupFirst hrid) r hr).2
  · simpa using hv
  · intro rid
    have hmiss :
        ((dedupFirst (splitSeps (clean rawS))).foldl batchStep
          { db := db, moved := 0, missing := [] }).missing
        = (dedupFirst (splitSeps (clean rawS))).filter
            (fun rid => (findRoll db rid).isNone) := by simpa using hm
    rw [hmiss]
    exact List.nodup_iff_count_le_one.mp (hnd.filter _) rid

/-- C10 witness: a concrete input with each id repeated is deduplicated, the
batch succeeds, and the existing roll gets exactly one new ledger entry. -/
theorem C10_batch_dedup_witness :
    (remove_batch_form exDb1 "R1 R1,R9;R9 R1").2 = none ∧
    (dedupFirst (splitSeps (clean "R1 R1,R9;R9 R1"))).Nodup :=
  ⟨(C10_batch_dedup exDb1 "R1 R1,R9;R9 R1" (by decide)).1,
   (C10_batch_dedup exDb1 "R1 R1,R9;R9 R1" (by decide)).2.1⟩

/-- C9 (amended): weights are parsed as Python `int(float(s))` and only
positive results are kept: a supplied (non-empty) weight that is non-numeric,
zero or negative is rejected with no roll written, and every stored weight is
a positive integer — but a decimal string is not rejected: its value is
truncated toward zero, so "2.7" is accepted as weight 2.  In Edit an empty
weight field is not a supplied weight: the roll's current weight is kept and
the edit proceeds. -/
theorem C9_weight_validation :
    (∀ s w, parse_weight s = some w → 1 ≤ w)
  ∧ (∀ db whS ptS ridS wS locS, parse_weight wS = none →
      ∃ e, add_form db whS ptS ridS wS locS = (db, some e))
  ∧ (∀ db ridS whS locS ptS wS r, findRoll db (clean ridS) = some r →
      (pyUpper (clean whS) == "WH1" || pyUpper (clean whS) == "WH2"
        || pyUpper (clean whS) == "USED") = true →
      (clean wS == "") = false → parse_weight (clean wS) = none →
      edit_roll_form db ridS whS locS ptS wS = (db, some AppError.missingFields))
  ∧ (∀ db db' ridS whS locS ptS wS, (clean wS == "") = true →
      edit_roll_form db ridS whS locS ptS wS = (db', none) →
      ∀ r r', findRoll db (clean ridS) = some r →
        findRoll db' (clean ridS) = some r' → r'.weight = r.weight)
  ∧ parse_weight "2.7" = some 2 := by
  refine ⟨?_, ?_, ?_, ?_, by decide⟩
  · intro s w h
    simp only [parse_weight] at h
    split at h
    · exact Option.noConfusion h
    · split at h
      · exact Option.noConfusion h
      · rename_i p neg ip fp heqp
        split at h <;> split at h
        all_goals injection h
        all_goals omega
  · intro db whS ptS ridS wS locS hw
    simp only [add_form]
    split
    · rw [hw]
      exact ⟨AppError.missingFields, rfl⟩
    · exact ⟨AppError.invalidWarehouse, rfl⟩
  · intro db ridS whS locS ptS wS r hfind hall hwne hpw
    simp [edit_roll_form, hfind, hall, hwne, hpw]
  · intro db db' ridS whS locS ptS wS hempty h r r' hr hr'
    obtain ⟨r0, w, lc, heq, hall, hwm, hchoice, rfl⟩ := edit_ok h
    have hrr : r0 = r := by
      rw [heq] at hr
      exact Option.some.inj hr
    subst hrr
    rw [if_pos hempty] at hwm
    have hw : w = r0.weight := (Option.some.inj hwm).symm
    rw [findRoll_logMovement, findRoll_updateRollFull_self heq] at hr'
    have hr'' : r' = { r0 with paper_type := clean ptS, weight := w,
                               warehouse := pyUpper (clean whS), location := lc } :=
      (Option.some.inj hr').symm
    rw [hr'']
    exact hw

/-- C9 witness: zero is rejected on parse, a concrete edit with a non-numeric
weight fails with no change to the store, and a concrete edit with an empty
weight field keeps the roll's current weight. -/
theorem C9_weight_validation_witness :
    parse_weight "0" = none ∧
    edit_roll_form exDb1 "R1" "WH1" "02" "KRAFT" "x"
      = (exDb1, some AppError.missingFields) ∧
    rollR1.weight = rollR1.weight :=
  ⟨by decide,
   C9_weight_validation.2.2.1 exDb1 "R1" "WH1" "02" "KRAFT" "x" rollR1
     (by decide) (by decide) (by decide) (by decide),
   C9_weight_validation.2.2.2.1 exDb1 exDb1Edited "R1" "WH1" "02" "KRAFT" ""
     (by decide) (by decide) rollR1 rollR1 (by decide) (by decide)⟩

/-- C9 counterexample: a non-integer numeric weight such as "2.7" does not
fail — the create succeeds and stores the truncated weight 2. -/
theorem C9_weight_validation_counterexample :
    (add_form dbEmpty "WH1" "KRAFT" "R1" "2.7" "02").2 = none ∧
    (findRoll (add_form dbEmpty "WH1" "KRAFT" "R1" "2.7" "02").1 "R1").map
      (fun r => r.weight) = some 2 := by
  decide

end RollInventory
